import Mathlib

/-!
Shallow embedding of the rljax replay-buffer subsystem and algorithm
base classes (`rljax/common/buffer.py`, `rljax/algorithm/base.py`).

Numeric scalars (numpy float32 values) are modelled as rationals; numpy
arrays of shape `(C, d)` are modelled as maps from slot index to an
optional slot record, `none` standing for a slot that has never been
written (`np.empty` leaves slots uninitialized).  Randomness
(`np.random.randint`) is modelled nondeterministically by an explicit
stream `rng : Nat → Nat`; the value drawn for position `i` of the batch
is `rng i % n`, which ranges over all of `[0, n)`.
-/

namespace Rljax

/-- Action-space kinds as dispatched on in `ReplayBuffer.__init__`
(`gym.spaces.Box`, `gym.spaces.Discrete`, or anything else). -/
inductive ActionSpace where
  | box (shape : List Nat)
  | discrete (n : Nat)
  | other
  deriving DecidableEq

/-- The storage allocated for `self.action`: a float32 array of the
action shape for `Box`, an int64 index array of shape `(C, 1)` for
`Discrete`, and nothing at all on the fall-through branch (the source's
`else` arm evaluates the bare expression `NotImplementedError` without
raising, so no array is allocated). -/
inductive ActionStorage where
  | float32Arr (shape : List Nat)
  | int64Scalar
  | unallocated
  deriving DecidableEq

/-- A transition as passed to `ReplayBuffer.append`:
`(state, action, reward, done, next_state)`. -/
structure TransIn where
  state : List ℚ
  action : List ℚ
  reward : ℚ
  done : Bool
  next_state : List ℚ
  deriving DecidableEq

/-- One stored slot of the buffer.  The source keeps five parallel
arrays written in lock-step at the same index; we fuse them into one
record per slot.  `reward` and `done` are rows of the `(C, 1)`-shaped
float32 arrays, hence length-one lists. -/
structure Slot where
  state : List ℚ
  action : List ℚ
  reward : List ℚ
  done : List ℚ
  next_state : List ℚ
  deriving DecidableEq

/-- What `append` writes into slot `p`: `float(reward)` and
`float(done)` (1.0 for a truthy `done`, 0.0 otherwise) broadcast into
the length-one rows. -/
def storedSlot (tr : TransIn) : Slot :=
  { state := tr.state
    action := tr.action
    reward := [tr.reward]
    done := [if tr.done then 1 else 0]
    next_state := tr.next_state }

/-- State of a `ReplayBuffer` (`rljax/common/buffer.py`): fill count
`_n`, cursor `_p`, capacity `buffer_size`, the action storage chosen
from the action space, and the slot contents. -/
structure ReplayBuffer where
  buffer_size : Nat
  state_shape : List Nat
  _n : Nat
  _p : Nat
  actionStorage : ActionStorage
  data : Nat → Option Slot

/-- `ReplayBuffer.__init__`: `_n = 0`, `_p = 0`, arrays allocated
uninitialized; the action array depends on the action-space kind, and
for an unsupported kind the `else` branch falls through without raising
(the exception is constructed as a bare expression, never raised). -/
def ReplayBuffer.init (buffer_size : Nat) (state_shape : List Nat)
    (action_space : ActionSpace) : ReplayBuffer :=
  { buffer_size := buffer_size
    state_shape := state_shape
    _n := 0
    _p := 0
    actionStorage :=
      match action_space with
      | ActionSpace.box shape => ActionStorage.float32Arr shape
      | ActionSpace.discrete _ => ActionStorage.int64Scalar
      | ActionSpace.other => ActionStorage.unallocated
    data := fun _ => none }

/-- `ReplayBuffer.append`: write the transition at slot `_p`, then
`_p = (_p + 1) % buffer_size` and `_n = min (_n + 1) buffer_size`. -/
def ReplayBuffer.append (b : ReplayBuffer) (state action : List ℚ)
    (reward : ℚ) (done : Bool) (next_state : List ℚ) : ReplayBuffer :=
  { b with
    data := fun i =>
      if i = b._p then
        some (storedSlot ⟨state, action, reward, done, next_state⟩)
      else b.data i
    _p := (b._p + 1) % b.buffer_size
    _n := min (b._n + 1) b.buffer_size }

/-- `append` applied to a bundled transition record. -/
def appendOne (b : ReplayBuffer) (tr : TransIn) : ReplayBuffer :=
  b.append tr.state tr.action tr.reward tr.done tr.next_state

/-- A whole sequence of `append` calls, oldest first. -/
def appendAll (b : ReplayBuffer) (ts : List TransIn) : ReplayBuffer :=
  ts.foldl appendOne b

/-- The error taxonomy of the buffer layer: `EmptyBufferError` is the
synchronous failure of `sample` when the buffer holds no transition
(`np.random.randint(low=0, high=0)` refuses an empty range). -/
inductive BufferError where
  | emptyBuffer
  deriving DecidableEq

/-- `np.random.randint(low=0, high=n, size=size)`: fails when `n = 0`,
otherwise returns `size` draws, each reduced into `[0, n)`. -/
def npRandint (n size : Nat) (rng : Nat → Nat) :
    Except BufferError (List Nat) :=
  if n = 0 then Except.error BufferError.emptyBuffer
  else Except.ok ((List.range size).map fun i => rng i % n)

/-- The index-drawing step of `ReplayBuffer.sample`. -/
def ReplayBuffer.sampleIdxes (b : ReplayBuffer) (batch_size : Nat)
    (rng : Nat → Nat) : Except BufferError (List Nat) :=
  npRandint b._n batch_size rng

/-- One gathered batch: a row per drawn index for each of the five
field arrays (`self.state[idxes]`, ...). -/
structure Batch where
  state : List (Option (List ℚ))
  action : List (Option (List ℚ))
  reward : List (Option (List ℚ))
  done : List (Option (List ℚ))
  next_state : List (Option (List ℚ))
  deriving DecidableEq

/-- Fancy-index gather at a list of slot indices. -/
def ReplayBuffer.gather (b : ReplayBuffer) (idxes : List Nat) : Batch :=
  { state := idxes.map fun i => (b.data i).map Slot.state
    action := idxes.map fun i => (b.data i).map Slot.action
    reward := idxes.map fun i => (b.data i).map Slot.reward
    done := idxes.map fun i => (b.data i).map Slot.done
    next_state := idxes.map fun i => (b.data i).map Slot.next_state }

/-- `ReplayBuffer.sample`: draw `batch_size` indices and gather the five
field arrays at them. -/
def ReplayBuffer.sample (b : ReplayBuffer) (batch_size : Nat)
    (rng : Nat → Nat) : Except BufferError Batch :=
  (b.sampleIdxes batch_size rng).map b.gather

/-- The largest index `< k` that is congruent to `i` modulo `C`
(meaningful when `i < k`): the global step of the most recent write to
slot `i` after `k` appends. -/
def lastIdx (k C i : Nat) : Nat := k - 1 - (k - 1 - i) % C

def demoTr : TransIn := ⟨[1], [0], 5, false, [2]⟩

def demoTs : List TransIn :=
  [⟨[1], [0], 5, false, [2]⟩, ⟨[2], [1], 6, true, [3]⟩,
   ⟨[3], [2], 7, false, [4]⟩]

def demoBuf : ReplayBuffer := ReplayBuffer.init 2 [1] (ActionSpace.discrete 3)

/-- The environment collaborator as `step` uses it: `env.step(action)`
returns `(next_state, reward, done, info)` with `info` discarded,
`env.reset()` yields a fresh state, `env.action_space.sample()` draws a
uniformly random action, and `_max_episode_steps` is the forced
truncation horizon. -/
structure Env where
  max_episode_steps : Nat
  stepf : List ℚ → List ℚ × ℚ × Bool
  reset : List ℚ
  sampleAction : List ℚ

/-- A record appended by `OnPolicyActorCritic.step`:
`(state, action, reward, mask, log_pi, next_state)`. -/
structure OnPolicyRecord where
  state : List ℚ
  action : List ℚ
  reward : ℚ
  mask : Bool
  log_pi : ℚ
  next_state : List ℚ

/-- The fields of `OnPolicyActorCritic` that `step` and `is_update`
read or write; the owned rollout buffer is modelled as the list of
appended records, and `explore` is the abstract policy method the
concrete agent supplies. -/
structure OnPolicyActorCritic where
  env_step : Nat
  buffer_size : Nat
  buffer : List OnPolicyRecord
  explore : List ℚ → List ℚ × ℚ

/-- `OnPolicyActorCritic.is_update`:
`env_step % buffer_size == 0`. -/
def OnPolicyActorCritic.is_update (alg : OnPolicyActorCritic) : Bool :=
  alg.env_step % alg.buffer_size == 0

/-- `OnPolicyActorCritic.step`: increment `t` and `env_step`, explore,
advance the environment, compute the done-vs-timeout mask, append, and
reset on episode end. -/
def OnPolicyActorCritic.step (alg : OnPolicyActorCritic) (env : Env)
    (state : List ℚ) (t : Nat) : OnPolicyActorCritic × List ℚ × Nat :=
  let t1 := t + 1
  let ap := alg.explore state
  let sr := env.stepf ap.1
  let mask := if t1 = env.max_episode_steps then false else sr.2.2
  let alg2 : OnPolicyActorCritic :=
    { alg with
      env_step := alg.env_step + 1
      buffer := alg.buffer ++ [⟨state, ap.1, sr.2.1, mask, ap.2, sr.1⟩] }
  if sr.2.2 then (alg2, env.reset, 0) else (alg2, sr.1, t1)

/-- A record appended by `OffPolicyAlgorithm.step`:
`(state, action, reward, mask, next_state, done)`. -/
structure OffPolicyRecord where
  state : List ℚ
  action : List ℚ
  reward : ℚ
  mask : Bool
  next_state : List ℚ
  done : Bool

/-- The error taxonomy of the constructor layer: the synchronous
failure of `OffPolicyAlgorithm.__init__` when its leading assertion on
the target-synchronization arguments does not hold. -/
inductive ConfigError where
  | configurationError
  deriving DecidableEq

/-- Target-network synchronization mode fixed at construction: a hard
copy (`soft_update` with `tau = 1.0`) every `update_interval_target`
steps, or a soft exponential blend with coefficient `tau`. -/
inductive TargetUpdate where
  | hardCopy (update_interval_target : Nat)
  | soft (tau : ℚ)
  deriving DecidableEq

/-- The fields of `OffPolicyAlgorithm` that `step`, `is_update` and the
constructor validation read or write. -/
structure OffPolicyAlgorithm where
  env_step : Nat
  start_steps : Nat
  update_interval : Nat
  target : TargetUpdate
  buffer : List OffPolicyRecord
  explore : List ℚ → List ℚ

/-- `OffPolicyAlgorithm.is_update`:
`env_step % update_interval == 0 and env_step >= start_steps`. -/
def OffPolicyAlgorithm.is_update (alg : OffPolicyAlgorithm) : Bool :=
  alg.env_step % alg.update_interval == 0
    && decide (alg.start_steps ≤ alg.env_step)

/-- Python truthiness of an optional integer argument: `None` and `0`
are falsy. -/
def truthyNat : Option Nat → Bool
  | none => false
  | some v => v != 0

/-- Python truthiness of an optional float argument: `None` and `0.0`
are falsy. -/
def truthyRat : Option ℚ → Bool
  | none => false
  | some v => v != 0

/-- `OffPolicyAlgorithm.__init__`: the leading
`assert update_interval_target or tau` fails when neither argument is
truthy; otherwise the instance starts at `env_step = 0`, and the target
mode prefers `update_interval_target` (hard copy) over `tau` (soft
blend). -/
def OffPolicyAlgorithm.init (start_steps update_interval : Nat)
    (update_interval_target : Option Nat) (tau : Option ℚ)
    (explore : List ℚ → List ℚ) : Except ConfigError OffPolicyAlgorithm :=
  if truthyNat update_interval_target || truthyRat tau then
    Except.ok
      { env_step := 0
        start_steps := start_steps
        update_interval := update_interval
        target :=
          match update_interval_target with
          | some v =>
            if v != 0 then TargetUpdate.hardCopy v
            else TargetUpdate.soft (tau.getD 0)
          | none => TargetUpdate.soft (tau.getD 0)
        buffer := []
        explore := explore }
  else Except.error ConfigError.configurationError

/-- `OffPolicyAlgorithm.step`: increment `t` and `env_step`, pick the
action (uniform random from the action space while
`env_step <= start_steps`, else the exploration policy), advance the
environment, compute the done-vs-timeout mask, append, and reset on
episode end. -/
def OffPolicyAlgorithm.step (alg : OffPolicyAlgorithm) (env : Env)
    (state : List ℚ) (t : Nat) : OffPolicyAlgorithm × List ℚ × Nat :=
  let t1 := t + 1
  let es1 := alg.env_step + 1
  let action :=
    if es1 ≤ alg.start_steps then env.sampleAction else alg.explore state
  let sr := env.stepf action
  let mask := if t1 = env.max_episode_steps then false else sr.2.2
  let alg2 : OffPolicyAlgorithm :=
    { alg with
      env_step := es1
      buffer := alg.buffer ++ [⟨state, action, sr.2.1, mask, sr.1, sr.2.2⟩] }
  if sr.2.2 then (alg2, env.reset, 0) else (alg2, sr.1, t1)

/-- A concrete off-policy instance with the cadence of the spec's
worked example (`update_interval = 4`, `start_steps = 10`). -/
def offDemo (s : Nat) : OffPolicyAlgorithm :=
  { env_step := s
    start_steps := 10
    update_interval := 4
    target := TargetUpdate.hardCopy 100
    buffer := []
    explore := fun _ => [] }

/-- A concrete environment for witnesses. -/
def demoEnv : Env :=
  { max_episode_steps := 5
    stepf := fun a => ([a.headD 0 + 1], 1, false)
    reset := [0]
    sampleAction := [7] }

/-- A concrete off-policy instance still inside its warm-up window. -/
def offDemo2 : OffPolicyAlgorithm :=
  { env_step := 0
    start_steps := 2
    update_interval := 4
    target := TargetUpdate.soft (1 / 200)
    buffer := []
    explore := fun s => s }

theorem appendAll_cons (b : ReplayBuffer) (t : TransIn) (ts : List TransIn) :
    appendAll b (t :: ts) = appendAll (appendOne b t) ts := rfl

theorem appendAll_concat (b : ReplayBuffer) (ts : List TransIn) (t : TransIn) :
    appendAll b (ts ++ [t]) = appendOne (appendAll b ts) t := by
  simp [appendAll, List.foldl_append]

theorem appendAll_buffer_size (ts : List TransIn) (b : ReplayBuffer) :
    (appendAll b ts).buffer_size = b.buffer_size := by
  induction ts generalizing b with
  | nil => rfl
  | cons t ts ih => simpa [appendAll_cons] using ih (appendOne b t)

theorem lastIdx_spec (k C i : Nat) (hC : 1 ≤ C) (hik : i < k) :
    lastIdx k C i < k ∧ lastIdx k C i % C = i % C ∧
    (∀ jj, lastIdx k C i < jj → jj < k → jj % C ≠ i % C) ∧
    (C ≤ k → k - C ≤ lastIdx k C i) := by
  have hCpos : 0 < C := hC
  set d := (k - 1 - i) % C with hd
  have hdlt : d < C := Nat.mod_lt _ hCpos
  obtain ⟨q, hq⟩ : ∃ q, C * q + d = k - 1 - i :=
    ⟨(k - 1 - i) / C, Nat.div_add_mod _ _⟩
  have hle : d ≤ k - 1 - i := Nat.mod_le _ _
  have hform : lastIdx k C i = i + C * q := by
    unfold lastIdx
    omega
  refine ⟨by omega, ?_, ?_, by omega⟩
  · rw [hform, Nat.add_mul_mod_self_left]
  · intro jj hlt hjk hmod
    rw [hform] at hlt
    have hmodeq : jj % C = (i + C * q) % C := by
      rw [Nat.add_mul_mod_self_left, hmod]
    have hdvd : C ∣ jj - (i + C * q) :=
      (Nat.modEq_iff_dvd' (Nat.le_of_lt hlt)).mp hmodeq.symm
    have hge : C ≤ jj - (i + C * q) := Nat.le_of_dvd (by omega) hdvd
    omega

/-- State of the buffer after appending the sequence `ts` into a fresh
buffer of capacity `C ≥ 1`: cursor and fill-count formulas, the
last-writer characterisation of every slot, and emptiness of the
never-written slots. -/
theorem appendAll_init_spec (C : Nat) (shape : List Nat) (sp : ActionSpace)
    (ts : List TransIn) (hC : 1 ≤ C) :
    (appendAll (ReplayBuffer.init C shape sp) ts)._p = ts.length % C ∧
    (appendAll (ReplayBuffer.init C shape sp) ts)._n = min ts.length C ∧
    (∀ i j (hj : j < ts.length), j % C = i →
      (∀ jj, j < jj → jj < ts.length → jj % C ≠ i) →
      (appendAll (ReplayBuffer.init C shape sp) ts).data i
        = some (storedSlot (ts.get ⟨j, hj⟩))) ∧
    (∀ i, (appendAll (ReplayBuffer.init C shape sp) ts)._n ≤ i →
      (appendAll (ReplayBuffer.init C shape sp) ts).data i = none) := by
  induction ts using List.reverseRecOn with
  | nil =>
    refine ⟨by simp [appendAll, ReplayBuffer.init], by simp [appendAll, ReplayBuffer.init], ?_, ?_⟩
    · intro i j hj
      simp at hj
    · intro i _
      rfl
  | append_singleton ts t ih =>
    obtain ⟨ihp, ihn, ihchar, ihnone⟩ := ih
    have hbs : (appendAll (ReplayBuffer.init C shape sp) ts).buffer_size = C :=
      appendAll_buffer_size ts _
    set b0 := appendAll (ReplayBuffer.init C shape sp) ts with hb0
    have hstep : appendAll (ReplayBuffer.init C shape sp) (ts ++ [t]) = appendOne b0 t :=
      appendAll_concat _ ts t
    have hlen : (ts ++ [t]).length = ts.length + 1 := by simp
    refine ⟨?_, ?_, ?_, ?_⟩
    · rw [hstep, hlen]
      show (b0._p + 1) % b0.buffer_size = (ts.length + 1) % C
      rw [hbs, ihp, Nat.mod_add_mod]
    · rw [hstep, hlen]
      show min (b0._n + 1) b0.buffer_size = min (ts.length + 1) C
      rw [hbs, ihn]
      omega
    · intro i j hj hmod hmax
      have hjk1 : j < ts.length + 1 := by rw [← hlen]; exact hj
      rw [hstep]
      show (if i = b0._p then some (storedSlot t) else b0.data i)
        = some (storedSlot ((ts ++ [t]).get ⟨j, hj⟩))
      rcases Nat.lt_or_ge j ts.length with hjk | hjk
      · have hne : i ≠ b0._p := by
          rw [ihp]
          exact fun h => hmax ts.length (by omega) (by omega) h.symm
        rw [if_neg hne]
        have hget : (ts ++ [t]).get ⟨j, hj⟩ = ts.get ⟨j, hjk⟩ := by
          simp [List.get_eq_getElem, List.getElem_append_left hjk]
        rw [hget]
        exact ihchar i j hjk hmod (fun jj h1 h2 => hmax jj h1 (by omega))
      · have hjeq : j = ts.length := by omega
        have heqi : i = b0._p := by rw [ihp, ← hmod, hjeq]
        rw [if_pos heqi]
        have hget : (ts ++ [t]).get ⟨j, hj⟩ = t := by
          simp [List.get_eq_getElem, List.getElem_concat_length ts t j hjeq]
        rw [hget]
    · intro i hi
      rw [hstep] at hi ⊢
      have hn2 : (appendOne b0 t)._n = min (ts.length + 1) C := by
        show min (b0._n + 1) b0.buffer_size = min (ts.length + 1) C
        rw [hbs, ihn]
        omega
      rw [hn2] at hi
      have hne : i ≠ b0._p := by
        rw [ihp]
        have h1 := Nat.mod_lt ts.length hC
        have h2 := Nat.mod_le ts.length C
        omega
      show (if i = b0._p then some (storedSlot t) else b0.data i) = none
      rw [if_neg hne]
      exact ihnone i (by rw [ihn]; omega)

/-- Two distinct naturals that agree modulo `Cv` are at least `Cv`
apart. -/
theorem congr_window_absurd (Cv a b : Nat) (_hC : 1 ≤ Cv) (hab : a < b)
    (hwin : b < a + Cv) (hmod : b % Cv = a % Cv) : False := by
  have hdvd : Cv ∣ b - a :=
    (Nat.modEq_iff_dvd' (Nat.le_of_lt hab)).mp hmod.symm
  have := Nat.le_of_dvd (by omega) hdvd
  omega

example :
    (appendAll (ReplayBuffer.init 2 [1] (ActionSpace.discrete 3))
      [⟨[1], [0], 5, false, [2]⟩, ⟨[2], [1], 6, true, [3]⟩,
       ⟨[3], [2], 7, false, [4]⟩])._n = 2 := by decide

example :
    (appendAll (ReplayBuffer.init 2 [1] (ActionSpace.discrete 3))
      [⟨[1], [0], 5, false, [2]⟩, ⟨[2], [1], 6, true, [3]⟩,
       ⟨[3], [2], 7, false, [4]⟩]).data 0
      = some (storedSlot ⟨[3], [2], 7, false, [4]⟩) := by decide

/-- C1: for every CircularReplayBuffer of capacity `C ≥ 1`, `append`
writes the transition into slot `p`, then advances `p` to `(p+1) mod C`
and sets `n` to `min (n+1) C`, with no failure conditions; after any
`k ≥ C` appends into a fresh buffer the fill count equals `C` and slot
`i` holds the transition appended at the unique global step `j` with
`j ≡ i (mod C)` among the most recent `C` appends. -/
theorem C1_append_overwrite :
    (∀ (b : ReplayBuffer) (tr : TransIn), 1 ≤ b.buffer_size →
      (appendOne b tr).data b._p = some (storedSlot tr) ∧
      (appendOne b tr)._p = (b._p + 1) % b.buffer_size ∧
      (appendOne b tr)._n = min (b._n + 1) b.buffer_size) ∧
    (∀ (C : Nat) (shape : List Nat) (sp : ActionSpace) (ts : List TransIn),
      1 ≤ C → C ≤ ts.length →
      (appendAll (ReplayBuffer.init C shape sp) ts)._n = C ∧
      (∀ i, i < C → ∃ j, ∃ hj : j < ts.length,
        ts.length - C ≤ j ∧ j % C = i ∧
        (appendAll (ReplayBuffer.init C shape sp) ts).data i
          = some (storedSlot (ts.get ⟨j, hj⟩)))) := by
  constructor
  · intro b tr _
    refine ⟨?_, rfl, rfl⟩
    show (if b._p = b._p then some (storedSlot ⟨tr.state, tr.action, tr.reward, tr.done, tr.next_state⟩)
      else b.data b._p) = some (storedSlot tr)
    rw [if_pos rfl]
  · intro C shape sp ts hC hk
    obtain ⟨_, ihn, ihchar, _⟩ := appendAll_init_spec C shape sp ts hC
    refine ⟨by omega, ?_⟩
    intro i hi
    have hik : i < ts.length := by omega
    obtain ⟨hlt, hmodeq, hmax, hwin⟩ := lastIdx_spec ts.length C i hC hik
    have hii : i % C = i := Nat.mod_eq_of_lt hi
    refine ⟨lastIdx ts.length C i, hlt, hwin hk, by rw [hmodeq, hii], ?_⟩
    exact ihchar i (lastIdx ts.length C i) hlt (by rw [hmodeq, hii])
      (fun jj h1 h2 h3 => hmax jj h1 h2 (by rw [hii]; exact h3))

theorem C1_witness :
    (1 ≤ demoBuf.buffer_size ∧
      (appendOne demoBuf demoTr).data demoBuf._p = some (storedSlot demoTr)) ∧
    (appendAll (ReplayBuffer.init 2 [1] (ActionSpace.discrete 3)) demoTs)._n = 2 :=
  ⟨⟨by decide, (C1_append_overwrite.1 demoBuf demoTr (by decide)).1⟩,
   (C1_append_overwrite.2 2 [1] (ActionSpace.discrete 3) demoTs (by decide)
     (by decide)).1⟩

/-- C4: construction and any sequence of appends preserve the buffer
invariant: cursor `p ∈ [0, C)`, fill count `n ∈ [0, C]`; slots `[0, n)`
hold stored copies of previously-appended transitions and slots `[n, C)`
are unwritten; once `n = C` every slot is valid, slot `p` holds the
oldest retained transition, and a subsequent write overwrites it. -/
theorem C4_invariant_preserved (C : Nat) (shape : List Nat) (sp : ActionSpace)
    (ts : List TransIn) (hC : 1 ≤ C) :
    (appendAll (ReplayBuffer.init C shape sp) ts)._p < C ∧
    (appendAll (ReplayBuffer.init C shape sp) ts)._n ≤ C ∧
    (∀ i, i < (appendAll (ReplayBuffer.init C shape sp) ts)._n →
      ∃ tr ∈ ts,
        (appendAll (ReplayBuffer.init C shape sp) ts).data i
          = some (storedSlot tr)) ∧
    (∀ i, (appendAll (ReplayBuffer.init C shape sp) ts)._n ≤ i →
      (appendAll (ReplayBuffer.init C shape sp) ts).data i = none) ∧
    ((appendAll (ReplayBuffer.init C shape sp) ts)._n = C →
      (∀ i, i < C →
        ((appendAll (ReplayBuffer.init C shape sp) ts).data i).isSome) ∧
      (∃ hh : ts.length - C < ts.length,
        (appendAll (ReplayBuffer.init C shape sp) ts).data
            (appendAll (ReplayBuffer.init C shape sp) ts)._p
          = some (storedSlot (ts.get ⟨ts.length - C, hh⟩))) ∧
      (∀ tr : TransIn,
        (appendOne (appendAll (ReplayBuffer.init C shape sp) ts) tr).data
            (appendAll (ReplayBuffer.init C shape sp) ts)._p
          = some (storedSlot tr))) := by
  obtain ⟨ihp, ihn, ihchar, ihnone⟩ := appendAll_init_spec C shape sp ts hC
  have hchar2 : ∀ i, i < (appendAll (ReplayBuffer.init C shape sp) ts)._n →
      ∃ tr ∈ ts,
        (appendAll (ReplayBuffer.init C shape sp) ts).data i
          = some (storedSlot tr) := by
    intro i hi
    rw [ihn] at hi
    have hik : i < ts.length := by omega
    have hiC : i < C := by omega
    obtain ⟨hlt, hmodeq, hmax, _⟩ := lastIdx_spec ts.length C i hC hik
    have hii : i % C = i := Nat.mod_eq_of_lt hiC
    refine ⟨ts.get ⟨lastIdx ts.length C i, hlt⟩, List.get_mem ts _ hlt, ?_⟩
    exact ihchar i (lastIdx ts.length C i) hlt (by rw [hmodeq, hii])
      (fun jj h1 h2 h3 => hmax jj h1 h2 (by rw [hii]; exact h3))
  refine ⟨by rw [ihp]; exact Nat.mod_lt _ hC, by omega, hchar2, ihnone, ?_⟩
  intro hfull
  have hkC : C ≤ ts.length := by
    rw [ihn] at hfull
    omega
  have hh : ts.length - C < ts.length := by omega
  refine ⟨?_, ⟨hh, ?_⟩, ?_⟩
  · intro i hi
    obtain ⟨tr, _, heq⟩ := hchar2 i (by omega)
    rw [heq]
    rfl
  · have hmodp : (ts.length - C) % C = ts.length % C := by
      conv_rhs => rw [show ts.length = (ts.length - C) + C by omega]
      rw [Nat.add_mod_right]
    rw [ihp]
    exact ihchar (ts.length % C) (ts.length - C) hh hmodp
      (fun jj h1 h2 h3 =>
        congr_window_absurd C (ts.length - C) jj hC h1 (by omega)
          (by rw [h3, hmodp]))
  · intro tr
    show (if (appendAll (ReplayBuffer.init C shape sp) ts)._p
        = (appendAll (ReplayBuffer.init C shape sp) ts)._p then
      some (storedSlot ⟨tr.state, tr.action, tr.reward, tr.done, tr.next_state⟩)
      else _) = some (storedSlot tr)
    rw [if_pos rfl]

theorem C4_witness :
    1 ≤ 2 ∧
      (appendAll (ReplayBuffer.init 2 [1] (ActionSpace.discrete 3)) demoTs)._p < 2 :=
  ⟨by decide,
   (C4_invariant_preserved 2 [1] (ActionSpace.discrete 3) demoTs (by decide)).1⟩

/-- C2: sampling from a buffer whose fill count is zero fails
synchronously at the call with the empty-buffer error, for every batch
size (the index draw over the empty range `[0, 0)` is refused before
anything is gathered). -/
theorem C2_sample_empty (b : ReplayBuffer) (hb : b._n = 0)
    (batch_size : Nat) (rng : Nat → Nat) :
    b.sampleIdxes batch_size rng = Except.error BufferError.emptyBuffer ∧
    b.sample batch_size rng = Except.error BufferError.emptyBuffer := by
  have h1 : b.sampleIdxes batch_size rng = Except.error BufferError.emptyBuffer := by
    unfold ReplayBuffer.sampleIdxes npRandint
    rw [hb]
    rfl
  refine ⟨h1, ?_⟩
  unfold ReplayBuffer.sample
  rw [h1]
  rfl

theorem C2_witness :
    (ReplayBuffer.init 2 [1] (ActionSpace.discrete 3))._n = 0 ∧
    (ReplayBuffer.init 2 [1] (ActionSpace.discrete 3)).sample 32 (fun i => i)
      = Except.error BufferError.emptyBuffer :=
  ⟨rfl,
   (C2_sample_empty (ReplayBuffer.init 2 [1] (ActionSpace.discrete 3)) rfl 32
     (fun i => i)).2⟩

/-- C3: sampling from a non-empty buffer draws `batch_size` indices,
each in `[0, n)`; every combination of in-range indices is a reachable
draw (sampling is with replacement and unconstrained across the batch);
and the call returns the five field arrays gathered at the drawn
indices, each with leading dimension `batch_size`. -/
theorem C3_sample_nonempty (b : ReplayBuffer) (batch_size : Nat)
    (rng : Nat → Nat) (hn : 1 ≤ b._n) (_hbs : 1 ≤ batch_size) :
    (∃ idxes : List Nat,
      b.sampleIdxes batch_size rng = Except.ok idxes ∧
      idxes.length = batch_size ∧
      (∀ i ∈ idxes, i < b._n) ∧
      b.sample batch_size rng = Except.ok (b.gather idxes) ∧
      (b.gather idxes).state.length = batch_size ∧
      (b.gather idxes).action.length = batch_size ∧
      (b.gather idxes).reward.length = batch_size ∧
      (b.gather idxes).done.length = batch_size ∧
      (b.gather idxes).next_state.length = batch_size ∧
      (∀ k, k < batch_size → ∃ i, idxes[k]? = some i ∧ i < b._n ∧
        (b.gather idxes).state[k]? = some ((b.data i).map Slot.state) ∧
        (b.gather idxes).action[k]? = some ((b.data i).map Slot.action) ∧
        (b.gather idxes).reward[k]? = some ((b.data i).map Slot.reward) ∧
        (b.gather idxes).done[k]? = some ((b.data i).map Slot.done) ∧
        (b.gather idxes).next_state[k]?
          = some ((b.data i).map Slot.next_state))) ∧
    (∀ target : List Nat, target.length = batch_size →
      (∀ v ∈ target, v < b._n) →
      ∃ rng2 : Nat → Nat,
        b.sampleIdxes batch_size rng2 = Except.ok target) := by
  have hne : b._n ≠ 0 := by omega
  constructor
  · refine ⟨(List.range batch_size).map fun i => rng i % b._n, ?_, by simp, ?_, ?_, ?_, ?_, ?_, ?_, ?_, ?_⟩
    · unfold ReplayBuffer.sampleIdxes npRandint
      rw [if_neg hne]
    · intro i hi
      simp only [List.mem_map, List.mem_range] at hi
      obtain ⟨j, _, rfl⟩ := hi
      exact Nat.mod_lt _ (by omega)
    · unfold ReplayBuffer.sample ReplayBuffer.sampleIdxes npRandint
      rw [if_neg hne]
      rfl
    · simp [ReplayBuffer.gather]
    · simp [ReplayBuffer.gather]
    · simp [ReplayBuffer.gather]
    · simp [ReplayBuffer.gather]
    · simp [ReplayBuffer.gather]
    · intro k hk
      refine ⟨rng k % b._n, ?_, Nat.mod_lt _ (by omega), ?_, ?_, ?_, ?_, ?_⟩
      · simp [List.getElem?_map, List.getElem?_range, hk]
      all_goals
        simp [ReplayBuffer.gather, List.getElem?_map, List.getElem?_range, hk]
  · intro target hlen hmem
    refine ⟨fun i => target.getD i 0, ?_⟩
    unfold ReplayBuffer.sampleIdxes npRandint
    rw [if_neg hne]
    congr 1
    apply List.ext_getElem
    · simp [hlen]
    · intro k h1 h2
      have hk2 : k < target.length := by simpa using h2
      have hget : target.getD k 0 = target[k] := List.getD_eq_getElem target 0 hk2
      simp only [List.getElem_map, List.getElem_range, hget]
      exact Nat.mod_eq_of_lt (hmem _ (target.getElem_mem hk2))

theorem C3_witness : ∃ idxes : List Nat,
    (appendOne (ReplayBuffer.init 2 [1] (ActionSpace.discrete 3))
      demoTr).sampleIdxes 4 (fun i => i) = Except.ok idxes ∧
    idxes.length = 4 := by
  obtain ⟨⟨idxes, h1, h2, _⟩, _⟩ :=
    C3_sample_nonempty
      (appendOne (ReplayBuffer.init 2 [1] (ActionSpace.discrete 3)) demoTr) 4
      (fun i => i) (by decide) (by decide)
  exact ⟨idxes, h1, h2⟩

/-- C10: every `append` stores `float(reward)` and `float(done)` — the
boolean done flag becomes the numeric mask 1.0 when it is truthy and
0.0 otherwise — each as a length-one float row, never as a boolean. -/
theorem C10_reward_done_as_floats (b : ReplayBuffer) (s a : List ℚ) (r : ℚ)
    (d : Bool) (ns : List ℚ) :
    ∃ slot : Slot,
      (b.append s a r d ns).data b._p = some slot ∧
      slot.reward = [r] ∧
      slot.done = [if d then 1 else 0] ∧
      slot.reward.length = 1 ∧ slot.done.length = 1 ∧
      (slot.done = [1] ∨ slot.done = [0]) := by
  refine ⟨storedSlot ⟨s, a, r, d, ns⟩, ?_, rfl, rfl, rfl, rfl, ?_⟩
  · show (if b._p = b._p then some (storedSlot ⟨s, a, r, d, ns⟩) else b.data b._p)
      = some (storedSlot ⟨s, a, r, d, ns⟩)
    rw [if_pos rfl]
  · cases d
    · right
      rfl
    · left
      rfl

/-- C5: `is_update` holds exactly on the update cadence — on-policy
when `env_step mod buffer_size = 0`, off-policy when
`env_step mod update_interval = 0` and `env_step ≥ start_steps`; with
`update_interval = 4` and `start_steps = 10` it is true at steps 12,
16, 20, … and false at every step in 1..9. -/
theorem C5_is_update_cadence :
    (∀ alg : OnPolicyActorCritic,
      alg.is_update = true ↔ alg.env_step % alg.buffer_size = 0) ∧
    (∀ alg : OffPolicyAlgorithm,
      alg.is_update = true ↔
        (alg.env_step % alg.update_interval = 0
          ∧ alg.start_steps ≤ alg.env_step)) ∧
    (∀ m : Nat, (offDemo (12 + 4 * m)).is_update = true) ∧
    (∀ s : Nat, 1 ≤ s → s ≤ 9 → (offDemo s).is_update = false) := by
  refine ⟨?_, ?_, ?_, ?_⟩
  · intro alg
    simp [OnPolicyActorCritic.is_update]
  · intro alg
    simp [OffPolicyAlgorithm.is_update]
  · intro m
    simp [OffPolicyAlgorithm.is_update, offDemo]
    omega
  · intro s h1 h9
    simp [OffPolicyAlgorithm.is_update, offDemo]
    omega

theorem C5_witness : (1 : Nat) ≤ 8 ∧ (8 : Nat) ≤ 9 ∧ (offDemo 8).is_update = false :=
  ⟨by decide, by decide, C5_is_update_cadence.2.2.2 8 (by decide) (by decide)⟩

/-- C6: for both step variants, the done mask appended to the owned
buffer equals the environment's done flag except that it is forced to
false when the incremented per-episode step count reaches
`_max_episode_steps`, so forced truncation is never recorded as a true
terminal. -/
theorem C6_timeout_mask (algOn : OnPolicyActorCritic)
    (algOff : OffPolicyAlgorithm) (env : Env) (state : List ℚ) (t : Nat) :
    ((OnPolicyActorCritic.step algOn env state t).1.buffer.getLast?.map
        OnPolicyRecord.mask
      = some (if t + 1 = env.max_episode_steps then false
          else (env.stepf (algOn.explore state).1).2.2)) ∧
    ((OffPolicyAlgorithm.step algOff env state t).1.buffer.getLast?.map
        OffPolicyRecord.mask
      = some (if t + 1 = env.max_episode_steps then false
          else (env.stepf
            (if algOff.env_step + 1 ≤ algOff.start_steps then env.sampleAction
             else algOff.explore state)).2.2)) := by
  constructor
  · unfold OnPolicyActorCritic.step
    cases hdone : (env.stepf (algOn.explore state).1).2.2 <;>
      simp [hdone]
  · unfold OffPolicyAlgorithm.step
    cases hdone : (env.stepf
        (if algOff.env_step + 1 ≤ algOff.start_steps then env.sampleAction
         else algOff.explore state)).2.2 <;>
      simp [hdone]

/-- C7 counterexample: supplying BOTH `update_interval_target` and
`tau` passes validation, because the source only asserts
`update_interval_target or tau`; so "exactly one must be supplied"
fails on the code. -/
theorem C7_counterexample :
    (OffPolicyAlgorithm.init 10 4 (some 1000) (some (1 / 100))
      (fun s => s)).isOk = true := rfl

/-- C7 amended: construction validates that at least one of
`update_interval_target` and `tau` is supplied (truthy); when neither
is supplied the constructor fails synchronously with the configuration
error, and only then. -/
theorem C7_target_sync_validation (ss ui : Nat)
    (update_interval_target : Option Nat) (tau : Option ℚ)
    (explore : List ℚ → List ℚ) :
    (OffPolicyAlgorithm.init ss ui update_interval_target tau explore
        = Except.error ConfigError.configurationError
      ↔ (truthyNat update_interval_target = false
          ∧ truthyRat tau = false)) ∧
    (update_interval_target = none → tau = none →
      OffPolicyAlgorithm.init ss ui update_interval_target tau explore
        = Except.error ConfigError.configurationError) := by
  constructor
  · unfold OffPolicyAlgorithm.init
    rcases h1 : truthyNat update_interval_target <;>
      rcases h2 : truthyRat tau <;> simp [h1, h2]
  · rintro rfl rfl
    rfl

theorem C7_witness :
    OffPolicyAlgorithm.init 10 4 none none (fun s => s)
      = Except.error ConfigError.configurationError :=
  (C7_target_sync_validation 10 4 none none (fun s => s)).2 rfl rfl

/-- C8: constructing a replay buffer over an unsupported action-space
kind does NOT fail — the source's `else` branch mentions
`NotImplementedError` without raising it, so construction completes
with no action storage allocated; the `Box` branch allocates float32
storage of the action shape and the `Discrete` branch an int64 index
per slot. -/
theorem C8_unsupported_action_space :
    (ReplayBuffer.init 5 [3] ActionSpace.other).actionStorage
        = ActionStorage.unallocated ∧
    (ReplayBuffer.init 5 [3] ActionSpace.other)._n = 0 ∧
    (ReplayBuffer.init 5 [3] ActionSpace.other)._p = 0 ∧
    (∀ (C : Nat) (st sh : List Nat),
      (ReplayBuffer.init C st (ActionSpace.box sh)).actionStorage
        = ActionStorage.float32Arr sh) ∧
    (∀ (C : Nat) (st : List Nat) (m : Nat),
      (ReplayBuffer.init C st (ActionSpace.discrete m)).actionStorage
        = ActionStorage.int64Scalar) :=
  ⟨rfl, rfl, rfl, fun _ _ _ => rfl, fun _ _ _ => rfl⟩

/-- C9: during the warm-up window (`env_step ≤ start_steps` after the
increment) the off-policy `step` takes its action from a uniform draw
of the environment's action space, and afterwards from the policy's
`explore(state)`; the appended transition records that action. -/
theorem C9_warmup_action (alg : OffPolicyAlgorithm) (env : Env)
    (state : List ℚ) (t : Nat) :
    (alg.env_step + 1 ≤ alg.start_steps →
      (OffPolicyAlgorithm.step alg env state t).1.buffer.getLast?.map
          OffPolicyRecord.action = some env.sampleAction) ∧
    (alg.start_steps < alg.env_step + 1 →
      (OffPolicyAlgorithm.step alg env state t).1.buffer.getLast?.map
          OffPolicyRecord.action = some (alg.explore state)) := by
  constructor
  · intro hwarm
    unfold OffPolicyAlgorithm.step
    simp only [if_pos hwarm]
    rcases hdone : (env.stepf env.sampleAction).2.2 <;> simp [hdone]
  · intro hpost
    have hneg : ¬ (alg.env_step + 1 ≤ alg.start_steps) := by omega
    unfold OffPolicyAlgorithm.step
    simp only [if_neg hneg]
    rcases hdone : (env.stepf (alg.explore state)).2.2 <;> simp [hdone]

theorem C9_witness :
    offDemo2.env_step + 1 ≤ offDemo2.start_steps ∧
    (OffPolicyAlgorithm.step offDemo2 demoEnv [3] 0).1.buffer.getLast?.map
        OffPolicyRecord.action = some demoEnv.sampleAction :=
  ⟨by decide, (C9_warmup_action offDemo2 demoEnv [3] 0).1 (by decide)⟩

end Rljax
